import Mathlib

/-!
Verification development for the session coordination and real-time
broadcast core of the full-app template (server.ts / session.ts).

The definitions below are a shallow embedding of that code:
* `SessionRow` / `DB`        — the SQLite `sessions` table (one row per id);
* `Session`                  — the `Session` class state (session.ts);
* `SDKMessage`               — the raw message stream of the agent query engine;
* `BroadcastEvent`           — the WebSocket events sent to subscribers;
* `Session.broadcast` …      — the methods of the `Session` class;
* `Session.addUserMessage`   — one full turn (the async body run to completion);
* `ServerState` / `wsOpen` / `wsClose` / `timerFire`
                             — the server.ts websocket handlers and the
                               60 s cleanup timer;
* `SState` / `applyStep`     — a small-step event-loop model of concurrent
                               `addUserMessage` calls on one session.
-/

/-- Opaque connection handle (a `ServerWebSocket` reference). -/
abbrev Conn : Type := Nat

/-- One row of the `sessions` table:
`(id TEXT PRIMARY KEY, session_id TEXT, created_at INTEGER, last_active_at INTEGER, message_count INTEGER)`.
The `id` is the key of the association list, so it is not repeated here. -/
structure SessionRow where
  session_id : Option String
  created_at : Nat
  last_active_at : Nat
  message_count : Nat
deriving DecidableEq, Repr

/-- The `sessions` table: an association list keyed by session id. -/
abbrev DB : Type := List (String × SessionRow)

/-- `SELECT * FROM sessions WHERE id = ?`. -/
def dbLookup (db : DB) (id : String) : Option SessionRow :=
  (db.find? (fun p => p.1 == id)).map Prod.snd

/-- `INSERT OR IGNORE INTO sessions VALUES (?, ?, ?, ?, ?)`: inserts a row
for `id` unless one already exists. -/
def dbInsertOrIgnore (db : DB) (id : String) (r : SessionRow) : DB :=
  if (dbLookup db id).isSome then db else db ++ [(id, r)]

/-- `UPDATE sessions SET session_id = ?, last_active_at = ?, message_count = ? WHERE id = ?`:
updates the mutable fields of the row for `id`; a no-op when no row matches. -/
def dbUpdate (db : DB) (id : String) (tok : Option String) (t : Nat) (cnt : Nat) : DB :=
  db.map (fun p =>
    if p.1 == id then
      (p.1, { p.2 with session_id := tok, last_active_at := t, message_count := cnt })
    else p)

/-- One content block of a raw assistant message.  Blocks whose `type` is
neither `"text"` nor `"tool_use"` fall through both `if` branches in
`broadcastToSubscribers` and are represented by `otherBlock`. -/
inductive ContentBlock where
  | text (text : String)
  | tool_use (name : String) (id : String) (input : String)
  | otherBlock
deriving DecidableEq, Repr

/-- `message.message.content` of a raw assistant message: either a plain
string or an array of content blocks. -/
inductive AssistantContent where
  | str (s : String)
  | blocks (bs : List ContentBlock)
deriving DecidableEq, Repr

/-- A raw message of the agent query engine stream, as inspected by
`session.ts` (`message.type` / `message.subtype`).  Every tag the code does
not inspect is `otherMsg`. -/
inductive SDKMessage where
  | assistant (content : AssistantContent)
  | result (subtype : String) (result : String) (total_cost_usd : Nat) (duration_ms : Nat)
  | user (content : String)
  | system_init (session_id : String)
  | otherMsg
deriving DecidableEq, Repr

/-- A WebSocket event sent to clients (the `wsMessage` objects built in
`session.ts`, plus `session_info` and the `system` reset acknowledgement). -/
inductive BroadcastEvent where
  | assistant_message (content : String) (sessionId : String)
  | tool_use (toolName : String) (toolId : String) (toolInput : String) (sessionId : String)
  | result_ok (result : String) (cost : Nat) (duration : Nat) (sessionId : String)
  | result_err (error : String) (sessionId : String)
  | user_message (content : String) (sessionId : String)
  | session_info (sessionId : String) (messageCount : Nat) (isActive : Bool)
  | errorEvent (error : String) (sessionId : String)
  | systemMsg (message : String)
deriving DecidableEq, Repr

/-- JS `Set.add`: appends the element unless already present (insertion
order is preserved, which is the iteration order of `broadcast`). -/
def setAdd (s : List Conn) (c : Conn) : List Conn :=
  if c ∈ s then s else s ++ [c]

/-- JS `Set.delete`: removes the element. -/
def setDelete (s : List Conn) (c : Conn) : List Conn :=
  s.filter (fun x => x ≠ c)

/-- The in-memory state of the `Session` class.  `queryPromise` records
whether the field is non-null (a query is in flight); `sdkSessionId` is the
continuation token captured from the `system`/`init` message. -/
structure Session where
  id : String
  queryPromise : Bool
  subscribers : List Conn
  messageCount : Nat
  sdkSessionId : Option String
deriving DecidableEq

/-- The `Session` constructor: stores the id, empty subscriber set, zero
count, no token, and runs `INSERT OR IGNORE` to initialise the durable row.
It performs no read of the stored row. -/
def Session.new (id : String) (db : DB) (now : Nat) : Session × DB :=
  (⟨id, false, [], 0, none⟩, dbInsertOrIgnore db id ⟨none, now, now, 0⟩)

/-- `hasSubscribers()`: `this.subscribers.size > 0`. -/
def Session.hasSubscribers (s : Session) : Bool :=
  decide (0 < s.subscribers.length)

/-- `cleanup()`: `this.subscribers.clear()`. -/
def Session.cleanup (s : Session) : Session :=
  { s with subscribers := [] }

/-- `reset()`: `this.sdkSessionId = null; this.queryPromise = null; this.messageCount = 0`. -/
def Session.reset (s : Session) : Session :=
  { s with sdkSessionId := none, queryPromise := false, messageCount := 0 }

/-- `subscribe(ws)`: adds to the subscriber set and sends (only to `ws`)
the `session_info` event; the second component is that unicast payload. -/
def Session.subscribe (s : Session) (c : Conn) : Session × BroadcastEvent :=
  ({ s with subscribers := setAdd s.subscribers c },
   .session_info s.id s.messageCount s.queryPromise)

/-- `unsubscribe(ws)`: `this.subscribers.delete(ws)`.  The method body has
no `return` statement, so its JS return value is `undefined`; the second
component models that returned value (`none` = `undefined`). -/
def Session.unsubscribe (s : Session) (c : Conn) : Session × Option Bool :=
  ({ s with subscribers := setDelete s.subscribers c }, none)

/-- The loop body of `broadcast`: `ws.send` each subscriber in iteration
order; a subscriber whose send throws is deleted from the set.  Returns the
surviving subscriber list and the list of connections that received the
event.  `sendOk c` says whether delivery to `c` succeeds. -/
def broadcastLoop (sendOk : Conn → Bool) : List Conn → List Conn × List Conn
  | [] => ([], [])
  | c :: rest =>
    let t := broadcastLoop sendOk rest
    if sendOk c then (c :: t.1, c :: t.2) else (t.1, t.2)

/-- `broadcast(message)`: delivers one event to every current subscriber;
failed subscribers are removed as a side effect.  Returns the updated
session and the connections the event was delivered to. -/
def Session.broadcast (s : Session) (sendOk : Conn → Bool) (_ev : BroadcastEvent) :
    Session × List Conn :=
  let t := broadcastLoop sendOk s.subscribers
  ({ s with subscribers := t.1 }, t.2)

/-- `broadcastError(error)`: broadcasts `{type:'error', error, sessionId}`.
Returns the updated session, the event that was broadcast, and the
connections it was delivered to. -/
def Session.broadcastError (s : Session) (sendOk : Conn → Bool) (e : String) :
    Session × BroadcastEvent × List Conn :=
  let ev : BroadcastEvent := .errorEvent e s.id
  let b := s.broadcast sendOk ev
  (b.1, ev, b.2)

/-- The events `broadcastToSubscribers` publishes for one raw message, in
publication order (the branch structure of the method, with `this.id` as
`sid`):
* assistant + string content → one `assistant_message`;
* assistant + block array → per block, in array order: `assistant_message`
  for a text block, `tool_use` for a tool_use block, nothing otherwise;
* result → one `result` event, success shape iff `subtype === "success"`;
* user → one `user_message`; anything else → nothing. -/
def translateMessage (sid : String) : SDKMessage → List BroadcastEvent
  | .assistant (.str content) => [.assistant_message content sid]
  | .assistant (.blocks bs) =>
      bs.filterMap (fun b =>
        match b with
        | .text t => some (.assistant_message t sid)
        | .tool_use name id input => some (.tool_use name id input sid)
        | .otherBlock => none)
  | .result subtype res cost dur =>
      if subtype == "success" then [.result_ok res cost dur sid]
      else [.result_err subtype sid]
  | .user content => [.user_message content sid]
  | .system_init _ => []
  | .otherMsg => []

/-- `broadcastToSubscribers(message)`: publishes each translated event via
`broadcast`, in order.  Returns the updated session and the published
events in publication order. -/
def Session.broadcastToSubscribers (s : Session) (sendOk : Conn → Bool) (m : SDKMessage) :
    Session × List BroadcastEvent :=
  let evs := translateMessage s.id m
  (evs.foldl (fun st ev => (st.broadcast sendOk ev).1) s, evs)

/-- Whether a raw message is the `system`/`init` turn-start signal. -/
def SDKMessage.isInit : SDKMessage → Bool
  | .system_init _ => true
  | _ => false

/-- A content block is one of the two kinds `broadcastToSubscribers`
translates (`text` or `tool_use`). -/
def ContentBlock.isSupported : ContentBlock → Bool
  | .otherBlock => false
  | _ => true

/-- The single event a supported content block translates to (the value at
`otherBlock` is arbitrary: such a block produces no event and the theorems
using `blockEvent` exclude it). -/
def blockEvent (sid : String) : ContentBlock → BroadcastEvent
  | .text t => .assistant_message t sid
  | .tool_use name id input => .tool_use name id input sid
  | .otherBlock => .errorEvent "" sid

/-- What `aiClient.queryStream(content, options)` produces for one
invocation: either a message list consumed to the end, or a message list
after which the stream throws with an error message. -/
inductive StreamOutcome where
  | ok (msgs : List SDKMessage)
  | err (msgs : List SDKMessage) (errMsg : String)
deriving DecidableEq

/-- The messages yielded before the turn ends (normally or by throwing). -/
def StreamOutcome.msgs : StreamOutcome → List SDKMessage
  | .ok ms => ms
  | .err ms _ => ms

/-- The arguments of one invocation of the agent query engine:
`queryStream(content, options)` where `options` is `{resume: sdkSessionId}`
when a token is stored and `{}` otherwise. -/
structure EngineCall where
  prompt : String
  resume : Option String
deriving DecidableEq

/-- The `system`/`init` handling inside the stream loop: on an init
message, capture the SDK session id and run the `UPDATE` with the new
token, `Date.now()` and the current message count; otherwise no effect. -/
def handleInit (s : Session) (db : DB) (now : Nat) : SDKMessage → Session × DB
  | .system_init sid =>
      let s1 := { s with sdkSessionId := some sid }
      (s1, dbUpdate db s.id (some sid) now s1.messageCount)
  | _ => (s, db)

/-- The `for await` loop body applied to a list of yielded messages:
broadcast each message's translation, then the init handling. -/
def runStream (sendOk : Conn → Bool) (now : Nat) :
    List SDKMessage → Session → DB → Session × DB × List BroadcastEvent
  | [], s, db => (s, db, [])
  | m :: rest, s, db =>
      let b := s.broadcastToSubscribers sendOk m
      let h := handleInit b.1 db now m
      let r := runStream sendOk now rest h.1 h.2
      (r.1, r.2.1, b.2 ++ r.2.2)

/-- The result of one completed turn: final session and database states,
the engine invocation that was made, and the events published in order. -/
structure TurnResult where
  session : Session
  db : DB
  call : EngineCall
  events : List BroadcastEvent

/-- `addUserMessage(content)`, one full turn run from idle to settled:
increment `messageCount`; build `options` from the stored token; consume
the stream, broadcasting and persisting on init; on a thrown stream error,
catch it and `broadcastError`; in all cases `finally` clears
`queryPromise`.  (The leading `await` on an in-flight `queryPromise` is the
subject of the event-loop model `SState`/`applyStep` below.) -/
def Session.addUserMessage (s : Session) (db : DB) (sendOk : Conn → Bool) (now : Nat)
    (content : String) (stream : StreamOutcome) : TurnResult :=
  let s1 := { s with messageCount := s.messageCount + 1, queryPromise := true }
  let call : EngineCall := ⟨content, s1.sdkSessionId⟩
  match stream with
  | .ok msgs =>
      let r := runStream sendOk now msgs s1 db
      ⟨{ r.1 with queryPromise := false }, r.2.1, call, r.2.2⟩
  | .err msgs emsg =>
      let r := runStream sendOk now msgs s1 db
      let e := r.1.broadcastError sendOk emsg
      ⟨{ e.1 with queryPromise := false }, r.2.1, call, r.2.2 ++ [e.2.1]⟩

/-- The `'reset'` branch of the server's websocket `message` handler:
`session.reset()` runs no database statement, then the requesting
connection alone gets the `system` acknowledgement (second component). -/
def serverReset (s : Session) (db : DB) : (Session × DB) × BroadcastEvent :=
  ((s.reset, db), .systemMsg "Conversation reset")

/-- The server state.  `Session` objects are mutated in place by the
handlers and are also captured by the cleanup `setTimeout` closures, so
they live in an explicit object store (`heap`) keyed by reference number;
`sessions` is the registry `Map` from session id to the object it
currently holds, and `timers` are the pending (never-cancelled) cleanup
timers, each recording the closure's captures — the `Session` object
reference and the `sessionId` string — plus its fire time. -/
structure ServerState where
  sessions : List (String × Nat)
  heap : List (Nat × Session)
  db : DB
  timers : List (Nat × String × Nat)
  nextRef : Nat
deriving DecidableEq

/-- Read a `Session` object from the store. -/
def heapGet (st : ServerState) (r : Nat) : Option Session :=
  (st.heap.find? (fun p => p.1 == r)).map Prod.snd

/-- Mutate a `Session` object in place (rewrite it in the store). -/
def heapSet (st : ServerState) (r : Nat) (s : Session) : ServerState :=
  { st with heap := st.heap.map (fun p => if p.1 == r then (p.1, s) else p) }

/-- `sessions.get(sessionId)`: the object reference the registry currently
holds for `sid`. -/
def lookupRef (st : ServerState) (sid : String) : Option Nat :=
  (st.sessions.find? (fun p => p.1 == sid)).map Prod.snd

/-- `sessions.get(sessionId)` followed by reading the object. -/
def lookupSession (st : ServerState) (sid : String) : Option Session :=
  match lookupRef st sid with
  | some r => heapGet st r
  | none => none

/-- The websocket `open` handler: get the session for `sid` or create one
(inserting it into the registry), then `subscribe(ws)` on that object.
Timers are untouched. -/
def wsOpen (st : ServerState) (sid : String) (c : Conn) (now : Nat) : ServerState :=
  match lookupRef st sid with
  | some r =>
      match heapGet st r with
      | some s => heapSet st r (s.subscribe c).1
      | none => st
  | none =>
      let n := Session.new sid st.db now
      let st1 : ServerState :=
        { st with db := n.2,
                  sessions := st.sessions ++ [(sid, st.nextRef)],
                  heap := st.heap ++ [(st.nextRef, n.1)],
                  nextRef := st.nextRef + 1 }
      heapSet st1 st.nextRef (n.1.subscribe c).1

/-- The websocket `close` handler: `unsubscribe(ws)` on the object the
registry holds for `sid`; if that object then has no subscribers, schedule
a one-shot cleanup timer for `now + 60000` capturing that object's
reference and the id.  No timer is ever cancelled. -/
def wsClose (st : ServerState) (sid : String) (c : Conn) (now : Nat) : ServerState :=
  match lookupRef st sid with
  | none => st
  | some r =>
      match heapGet st r with
      | none => st
      | some s =>
          let s1 := (s.unsubscribe c).1
          let st1 := heapSet st r s1
          if s1.hasSubscribers then st1
          else { st1 with timers := st1.timers ++ [(r, sid, now + 60000)] }

/-- Remove one pending timer entry (the one that is firing). -/
def removeOneTimer : List (Nat × String × Nat) → Nat → String → Nat → List (Nat × String × Nat)
  | [], _, _, _ => []
  | t :: rest, r, sid, fireAt =>
      if t.1 == r && t.2.1 == sid && t.2.2 == fireAt then rest
      else t :: removeOneTimer rest r sid fireAt

/-- The body of the cleanup `setTimeout` whose closure captured the
`Session` object `r` and the id `sid`:
`if (session && !session.hasSubscribers()) { session.cleanup();
sessions.delete(sessionId); }` — the re-check reads the CAPTURED object
(which the closure keeps alive, so the store lookup of `r` cannot miss),
not the registry's current entry for `sid`; on a negative re-check it
clears that object's subscriber set and deletes the registry entry for
`sid`, whatever object that entry currently holds.  The fired timer itself
is spent.  Returns the new state and, when eviction ran, the cleaned-up
captured object. -/
def timerFire (st : ServerState) (r : Nat) (sid : String) (fireAt : Nat) :
    ServerState × Option Session :=
  let st1 : ServerState :=
    { st with timers := removeOneTimer st.timers r sid fireAt }
  match heapGet st1 r with
  | none => (st1, none)
  | some s =>
      if s.hasSubscribers then (st1, none)
      else
        let st2 := heapSet st1 r s.cleanup
        ({ st2 with sessions := st2.sessions.filter (fun p => p.1 ≠ sid) },
         some s.cleanup)

/-!
Event-loop model of concurrent `addUserMessage` calls on one coordinator.

`addUserMessage` does, in this order:
1. `if (this.queryPromise) await this.queryPromise;`  — the check happens
   once; a caller that finds a promise suspends on it and, when it resumes,
   does NOT re-check;
2. `this.messageCount++`, start the IIFE: the engine invocation begins
   (the stream is opened) and `this.queryPromise` is set to the new
   promise; the IIFE's `finally` sets `this.queryPromise = null`
   unconditionally when its own stream ends;
3. the caller awaits the new promise (irrelevant to invocation overlap).

The model below: turns are numbered; `runningTurns` are the invocations
currently in flight, `settledTurns` the finished ones, `queryPromise` what
the field currently holds, `waiting` the callers suspended in step 1,
paired with the turn they await.  The JS event loop drains queued
continuations (microtasks) before handling a new external event, so the
externally-triggered steps `callStep` and `settleStep` are enabled only
when no suspended caller is resumable.
-/

/-- A scheduler step: a new `addUserMessage` call by caller `c`, the
resumption of a suspended caller `c`, or the completion (normal or thrown,
including the `finally`) of turn `t`'s invocation. -/
inductive Step where
  | callStep (c : Nat)
  | resumeStep (c : Nat)
  | settleStep (t : Nat)
deriving DecidableEq, Repr

/-- Event-loop state of one coordinator's serialization machinery. -/
structure SState where
  queryPromise : Option Nat
  waiting : List (Nat × Nat)
  runningTurns : List Nat
  settledTurns : List Nat
  nextTurn : Nat
deriving DecidableEq, Repr

/-- Initial state: field null, nobody waiting, no turn yet. -/
def SState.init : SState := ⟨none, [], [], [], 0⟩

/-- Is some suspended caller's awaited promise already settled (a queued
continuation the event loop must run before external events)? -/
def hasResumable (st : SState) : Bool :=
  st.waiting.any (fun w => st.settledTurns.contains w.2)

/-- Step 2 of `addUserMessage`: open a new engine invocation and store its
promise in `queryPromise`. -/
def startTurn (st : SState) : SState :=
  { st with runningTurns := st.nextTurn :: st.runningTurns,
            queryPromise := some st.nextTurn,
            nextTurn := st.nextTurn + 1 }

/-- One scheduler step; `none` when the step is not enabled. -/
def applyStep (st : SState) (e : Step) : Option SState :=
  match e with
  | .callStep c =>
      if hasResumable st then none
      else if st.waiting.any (fun w => w.1 == c) then none
      else
        match st.queryPromise with
        | some t => some { st with waiting := st.waiting ++ [(c, t)] }
        | none => some (startTurn st)
  | .resumeStep c =>
      match st.waiting.find? (fun w => w.1 == c) with
      | some w =>
          if st.settledTurns.contains w.2 then
            some (startTurn { st with waiting := st.waiting.filter (fun x => x.1 ≠ c) })
          else none
      | none => none
  | .settleStep t =>
      if hasResumable st then none
      else if st.runningTurns.contains t then
        some { st with runningTurns := st.runningTurns.filter (fun x => x ≠ t),
                       settledTurns := t :: st.settledTurns,
                       queryPromise := none }
      else none

/-- Run a list of scheduler steps; `none` if any step is not enabled. -/
def runFrom (st : SState) : List Step → Option SState
  | [] => some st
  | e :: es =>
      match applyStep st e with
      | some st1 => runFrom st1 es
      | none => none

/-- Every state along the run (the enabled prefix) has at most one
suspended caller: the workload keeps at most one call pending at a time. -/
def chkLe1 (st : SState) : List Step → Bool
  | [] => decide (st.waiting.length ≤ 1)
  | e :: es =>
      decide (st.waiting.length ≤ 1) &&
      (match applyStep st e with
       | some st1 => chkLe1 st1 es
       | none => true)

/-- Safety invariant of the event-loop model: at most one invocation in
flight, the stored promise (if any) is the running one, a cleared field
means nothing runs, a suspended caller whose awaited turn has settled can
only exist while nothing runs, running and settled turns are disjoint, and
turn numbers are below the allocator. -/
def SInv (st : SState) : Prop :=
  st.runningTurns.length ≤ 1 ∧
  (∀ t, st.queryPromise = some t → t ∈ st.runningTurns) ∧
  (st.queryPromise = none → st.runningTurns = []) ∧
  (∀ w ∈ st.waiting, w.2 ∈ st.settledTurns → st.runningTurns = []) ∧
  (∀ t ∈ st.runningTurns, t ∉ st.settledTurns) ∧
  (∀ t ∈ st.runningTurns, t < st.nextTurn) ∧
  (∀ t ∈ st.settledTurns, t < st.nextTurn)

/-- Scenario state: subscriber `1` opens session `"s1"` at `t = 0` (the
session object gets reference `0`). -/
def evictionScenario1 : ServerState := wsOpen ⟨[], [], [], [], 0⟩ "s1" 1 0

/-- Scenario state: subscriber `1` disconnects at `t = 0`; the count drops
to zero and a timer for `t = 60000` capturing object `0` is scheduled. -/
def evictionScenario2 : ServerState := wsClose evictionScenario1 "s1" 1 0

/-- Scenario state: a new subscriber `2` joins at `t = 59000` (59 s); the
pending timer is not cancelled. -/
def evictionScenario3 : ServerState := wsOpen evictionScenario2 "s1" 2 59000

/-- Stale-timer trace, step 1: subscriber `1` opens `"s1"` at `t = 0`
(object `0`). -/
def staleScenario1 : ServerState := wsOpen ⟨[], [], [], [], 0⟩ "s1" 1 0

/-- Stale-timer trace, step 2: subscriber `1` disconnects at `t = 1000`;
timer A `(0, "s1", 61000)` is scheduled. -/
def staleScenario2 : ServerState := wsClose staleScenario1 "s1" 1 1000

/-- Stale-timer trace, step 3: subscriber `2` joins at `t = 2000`
(object `0` again; timer A keeps running). -/
def staleScenario3 : ServerState := wsOpen staleScenario2 "s1" 2 2000

/-- Stale-timer trace, step 4: subscriber `2` disconnects at `t = 3000`;
a second timer B `(0, "s1", 63000)` is scheduled. -/
def staleScenario4 : ServerState := wsClose staleScenario3 "s1" 2 3000

/-- Stale-timer trace, step 5: timer A fires at `t = 61000`; object `0`
has no subscribers, so it is cleaned up and `"s1"` leaves the registry.
Timer B is still pending. -/
def staleScenario5 : ServerState := (timerFire staleScenario4 0 "s1" 61000).1

/-- Stale-timer trace, step 6: subscriber `3` opens `"s1"` at `t = 62000`;
the id is re-created as a fresh coordinator (object `1`) with a live
subscriber, strictly before timer B fires. -/
def staleScenario6 : ServerState := wsOpen staleScenario5 "s1" 3 62000

/-! ### Supporting lemmas -/

theorem broadcastLoop_eq (sendOk : Conn → Bool) (l : List Conn) :
    broadcastLoop sendOk l = (l.filter sendOk, l.filter sendOk) := by
  induction l with
  | nil => rfl
  | cons c rest ih =>
      simp only [broadcastLoop, ih, List.filter_cons]
      cases h : sendOk c <;> simp [h]

theorem broadcast_subscribers (s : Session) (sendOk : Conn → Bool) (ev : BroadcastEvent) :
    (s.broadcast sendOk ev).1.subscribers = s.subscribers.filter sendOk := by
  simp [Session.broadcast, broadcastLoop_eq]

theorem broadcast_delivered (s : Session) (sendOk : Conn → Bool) (ev : BroadcastEvent) :
    (s.broadcast sendOk ev).2 = s.subscribers.filter sendOk := by
  simp [Session.broadcast, broadcastLoop_eq]

theorem broadcast_frame (s : Session) (sendOk : Conn → Bool) (ev : BroadcastEvent) :
    (s.broadcast sendOk ev).1.id = s.id ∧
    (s.broadcast sendOk ev).1.messageCount = s.messageCount ∧
    (s.broadcast sendOk ev).1.sdkSessionId = s.sdkSessionId ∧
    (s.broadcast sendOk ev).1.queryPromise = s.queryPromise := by
  simp [Session.broadcast]

theorem publish_foldl_frame (sendOk : Conn → Bool) (evs : List BroadcastEvent) :
    ∀ s : Session,
      (evs.foldl (fun st ev => (st.broadcast sendOk ev).1) s).id = s.id ∧
      (evs.foldl (fun st ev => (st.broadcast sendOk ev).1) s).messageCount = s.messageCount ∧
      (evs.foldl (fun st ev => (st.broadcast sendOk ev).1) s).sdkSessionId = s.sdkSessionId ∧
      (evs.foldl (fun st ev => (st.broadcast sendOk ev).1) s).queryPromise = s.queryPromise := by
  induction evs with
  | nil => intro s; simp
  | cons ev rest ih =>
      intro s
      simpa [List.foldl_cons, Session.broadcast] using ih ((s.broadcast sendOk ev).1)

theorem broadcastToSubscribers_frame (s : Session) (sendOk : Conn → Bool) (m : SDKMessage) :
    (s.broadcastToSubscribers sendOk m).1.id = s.id ∧
    (s.broadcastToSubscribers sendOk m).1.messageCount = s.messageCount ∧
    (s.broadcastToSubscribers sendOk m).1.sdkSessionId = s.sdkSessionId ∧
    (s.broadcastToSubscribers sendOk m).1.queryPromise = s.queryPromise := by
  simpa [Session.broadcastToSubscribers] using
    publish_foldl_frame sendOk (translateMessage s.id m) s

theorem handleInit_frame (s : Session) (db : DB) (now : Nat) (m : SDKMessage) :
    (handleInit s db now m).1.id = s.id ∧
    (handleInit s db now m).1.messageCount = s.messageCount ∧
    (handleInit s db now m).1.queryPromise = s.queryPromise := by
  cases m <;> simp [handleInit]

theorem runStream_frame (sendOk : Conn → Bool) (now : Nat) :
    ∀ (msgs : List SDKMessage) (s : Session) (db : DB),
      (runStream sendOk now msgs s db).1.id = s.id ∧
      (runStream sendOk now msgs s db).1.messageCount = s.messageCount ∧
      (runStream sendOk now msgs s db).1.queryPromise = s.queryPromise := by
  intro msgs
  induction msgs with
  | nil => intro s db; simp [runStream]
  | cons m rest ih =>
      intro s db
      have hb := broadcastToSubscribers_frame s sendOk m
      have hh := handleInit_frame (s.broadcastToSubscribers sendOk m).1 db now m
      have hr := ih (handleInit (s.broadcastToSubscribers sendOk m).1 db now m).1
        (handleInit (s.broadcastToSubscribers sendOk m).1 db now m).2
      simp only [runStream]
      exact ⟨by rw [hr.1, hh.1, hb.1], by rw [hr.2.1, hh.2.1, hb.2.1],
             by rw [hr.2.2, hh.2.2, hb.2.2.2]⟩

theorem handleInit_not_init (s : Session) (db : DB) (now : Nat) (m : SDKMessage)
    (h : m.isInit = false) : handleInit s db now m = (s, db) := by
  cases m <;> simp_all [SDKMessage.isInit, handleInit]

theorem runStream_no_init (sendOk : Conn → Bool) (now : Nat) :
    ∀ (msgs : List SDKMessage) (s : Session) (db : DB),
      msgs.any SDKMessage.isInit = false →
      (runStream sendOk now msgs s db).1.sdkSessionId = s.sdkSessionId ∧
      (runStream sendOk now msgs s db).2.1 = db := by
  intro msgs
  induction msgs with
  | nil => intro s db _; simp [runStream]
  | cons m rest ih =>
      intro s db h
      rw [List.any_cons] at h
      have hm : m.isInit = false := by
        cases hmm : m.isInit <;> simp [hmm] at h ⊢
      have hrest : rest.any SDKMessage.isInit = false := by
        cases hmm : rest.any SDKMessage.isInit <;> simp_all
      have hb := broadcastToSubscribers_frame s sendOk m
      simp only [runStream, handleInit_not_init _ _ _ _ hm]
      have hr := ih (s.broadcastToSubscribers sendOk m).1 db hrest
      exact ⟨by rw [hr.1, hb.2.2.1], hr.2⟩

theorem dbLookup_update (id : String) (tok : Option String) (t cnt : Nat) :
    ∀ (db : DB) (r0 : SessionRow), dbLookup db id = some r0 →
      dbLookup (dbUpdate db id tok t cnt) id = some ⟨tok, r0.created_at, t, cnt⟩ := by
  intro db
  induction db with
  | nil => intro r0 h; simp [dbLookup] at h
  | cons p rest ih =>
      intro r0 h
      cases hp : (p.1 == id) with
      | true =>
          simp only [dbLookup, List.find?_cons, hp, Option.map_some] at h
          simp only [dbUpdate, List.map_cons, dbLookup, List.find?_cons, hp,
            if_pos rfl, Option.map_some]
          simp_all
      | false =>
          simp only [dbLookup, List.find?_cons, hp] at h
          simp only [dbUpdate, List.map_cons, dbLookup, List.find?_cons, hp, if_neg,
            Bool.false_eq_true, if_false]
          exact ih r0 h

theorem runStream_db (sendOk : Conn → Bool) (now : Nat) :
    ∀ (msgs : List SDKMessage) (s : Session) (db : DB) (r0 : SessionRow),
      dbLookup db s.id = some r0 →
      msgs.any SDKMessage.isInit = true →
      dbLookup (runStream sendOk now msgs s db).2.1 s.id =
        some ⟨(runStream sendOk now msgs s db).1.sdkSessionId, r0.created_at, now,
              s.messageCount⟩ := by
  intro msgs
  induction msgs with
  | nil => intro s db r0 h hany; simp at hany
  | cons m rest ih =>
      intro s db r0 h hany
      have hb := broadcastToSubscribers_frame s sendOk m
      cases hm : m.isInit with
      | true =>
          cases m with
          | system_init sid =>
              simp only [runStream, handleInit]
              have hlk : dbLookup
                  (dbUpdate db (s.broadcastToSubscribers sendOk (.system_init sid)).1.id
                    (some sid) now
                    ({ (s.broadcastToSubscribers sendOk (.system_init sid)).1 with
                        sdkSessionId := some sid } : Session).messageCount) s.id =
                  some ⟨some sid, r0.created_at, now, s.messageCount⟩ := by
                rw [hb.1]
                have : ({ (s.broadcastToSubscribers sendOk (.system_init sid)).1 with
                    sdkSessionId := some sid } : Session).messageCount = s.messageCount := by
                  simpa using hb.2.1
                rw [this]
                exact dbLookup_update s.id (some sid) now s.messageCount db r0 h
              cases hrest : rest.any SDKMessage.isInit with
              | true =>
                  have := ih ({ (s.broadcastToSubscribers sendOk (.system_init sid)).1 with
                      sdkSessionId := some sid } : Session)
                    (dbUpdate db (s.broadcastToSubscribers sendOk (.system_init sid)).1.id
                      (some sid) now
                      ({ (s.broadcastToSubscribers sendOk (.system_init sid)).1 with
                          sdkSessionId := some sid } : Session).messageCount)
                    ⟨some sid, r0.created_at, now, s.messageCount⟩
                    (by simpa [hb.1] using hlk) hrest
                  simpa [hb.1, hb.2.1] using this
              | false =>
                  have hni := runStream_no_init sendOk now rest
                    ({ (s.broadcastToSubscribers sendOk (.system_init sid)).1 with
                        sdkSessionId := some sid } : Session)
                    (dbUpdate db (s.broadcastToSubscribers sendOk (.system_init sid)).1.id
                      (some sid) now
                      ({ (s.broadcastToSubscribers sendOk (.system_init sid)).1 with
                          sdkSessionId := some sid } : Session).messageCount) hrest
                  rw [hni.2, hni.1]
                  simpa using hlk
          | assistant c => simp [SDKMessage.isInit] at hm
          | result a b c d => simp [SDKMessage.isInit] at hm
          | user c => simp [SDKMessage.isInit] at hm
          | otherMsg => simp [SDKMessage.isInit] at hm
      | false =>
          have hrest : rest.any SDKMessage.isInit = true := by
            rw [List.any_cons, hm] at hany
            simpa using hany
          simp only [runStream, handleInit_not_init _ _ _ _ hm]
          have := ih (s.broadcastToSubscribers sendOk m).1 db r0
            (by rw [hb.1]; exact h) hrest
          simpa [hb.1, hb.2.1] using this

theorem dbLookup_append_right (id : String) (r : SessionRow) :
    ∀ db : DB, dbLookup db id = none → dbLookup (db ++ [(id, r)]) id = some r := by
  intro db
  induction db with
  | nil => intro _; simp [dbLookup, List.find?]
  | cons p rest ih =>
      intro h
      cases hp : (p.1 == id) with
      | true => simp [dbLookup, List.find?_cons, hp] at h
      | false =>
          simp only [dbLookup, List.find?_cons, hp] at h
          simp only [List.cons_append, dbLookup, List.find?_cons, hp, Bool.false_eq_true,
            if_false]
          exact ih h

theorem addUserMessage_no_init_token (s : Session) (db : DB) (sendOk : Conn → Bool)
    (now : Nat) (content : String) (stream : StreamOutcome)
    (h : stream.msgs.any SDKMessage.isInit = false) :
    (s.addUserMessage db sendOk now content stream).session.sdkSessionId = s.sdkSessionId ∧
    (s.addUserMessage db sendOk now content stream).db = db := by
  cases stream with
  | ok msgs =>
      have := runStream_no_init sendOk now msgs
        { s with messageCount := s.messageCount + 1, queryPromise := true } db
        (by simpa [StreamOutcome.msgs] using h)
      simpa [Session.addUserMessage] using this
  | err msgs emsg =>
      have hni := runStream_no_init sendOk now msgs
        { s with messageCount := s.messageCount + 1, queryPromise := true } db
        (by simpa [StreamOutcome.msgs] using h)
      have hbf := broadcast_frame
        (runStream sendOk now msgs
          { s with messageCount := s.messageCount + 1, queryPromise := true } db).1
        sendOk
        (.errorEvent emsg
          (runStream sendOk now msgs
            { s with messageCount := s.messageCount + 1, queryPromise := true } db).1.id)
      refine ⟨?_, by simpa [Session.addUserMessage] using hni.2⟩
      simp only [Session.addUserMessage, Session.broadcastError]
      rw [hbf.2.2.1]
      simpa using hni.1

theorem filterMap_blocks (sid : String) :
    ∀ bs : List ContentBlock, (∀ b ∈ bs, b.isSupported = true) →
      (bs.filterMap (fun b =>
        match b with
        | .text t => some (.assistant_message t sid)
        | .tool_use name id input => some (.tool_use name id input sid)
        | .otherBlock => none)) = bs.map (blockEvent sid) := by
  intro bs
  induction bs with
  | nil => intro _; rfl
  | cons b rest ih =>
      intro h
      have hb := h b (List.mem_cons_self b rest)
      have hrest := ih (fun x hx => h x (List.mem_cons_of_mem b hx))
      cases b with
      | text t => simp [List.filterMap_cons, List.map_cons, blockEvent, hrest]
      | tool_use name id input =>
          simp [List.filterMap_cons, List.map_cons, blockEvent, hrest]
      | otherBlock => simp [ContentBlock.isSupported] at hb

/-! ### Claim theorems -/

/-- C6: `reset()` clears the stored continuation token, the message count
and the in-flight state immediately — the equations hold for every session
state, in particular one whose `queryPromise` is set (a query genuinely in
flight) — and the next `addUserMessage` after a reset invokes the agent
query engine with no resume directive (`EngineCall.resume = none`), i.e.
as a fresh turn. -/
theorem C6_reset_fresh_turn (s : Session) (db : DB) (sendOk : Conn → Bool)
    (now : Nat) (content : String) (stream : StreamOutcome) :
    s.reset.sdkSessionId = none ∧ s.reset.messageCount = 0 ∧
    s.reset.queryPromise = false ∧
    (s.reset.addUserMessage db sendOk now content stream).call = ⟨content, none⟩ := by
  refine ⟨rfl, rfl, rfl, ?_⟩
  cases stream <;> simp [Session.addUserMessage, Session.reset]

/-- C9 counterexample: `unsubscribe` does not return whether the
subscriber set is now empty.  On the session with subscriber set `[5]`,
unsubscribing `5` empties the set, yet the returned value is `none`
(JS `undefined` — the method body has no `return` statement), not
`some true`. -/
theorem C9_counterexample :
    (Session.unsubscribe ⟨"s1", false, [5], 0, none⟩ 5).1.subscribers = [] ∧
    (Session.unsubscribe ⟨"s1", false, [5], 0, none⟩ 5).2 = none ∧
    ¬ ((Session.unsubscribe ⟨"s1", false, [5], 0, none⟩ 5).2 =
        some ((Session.unsubscribe ⟨"s1", false, [5], 0, none⟩ 5).1.subscribers.isEmpty)) := by
  refine ⟨by decide, rfl, by decide⟩

/-- C9 (amended): `unsubscribe(connection)` removes the connection from the
subscriber set and returns no value (`none`); whether the set is now empty
is available to callers only through `hasSubscribers()`, whose falsity is
equivalent to emptiness of the subscriber set. -/
theorem C9_amended_unsubscribe (s : Session) (c : Conn) :
    (s.unsubscribe c).1.subscribers = setDelete s.subscribers c ∧
    c ∉ (s.unsubscribe c).1.subscribers ∧
    (s.unsubscribe c).2 = none ∧
    ((s.unsubscribe c).1.hasSubscribers = false ↔ (s.unsubscribe c).1.subscribers = []) := by
  refine ⟨rfl, ?_, rfl, ?_⟩
  · simp [Session.unsubscribe, setDelete, List.mem_filter]
  · simp [Session.hasSubscribers, List.length_eq_zero]

/-- C9 witness: unsubscribing `5` from the set `[5, 6]` removes it, the
returned value is `none`, and `hasSubscribers` stays true because `[6]` is
not empty. -/
theorem C9_amended_unsubscribe_witness :
    (Session.unsubscribe ⟨"s1", false, [5, 6], 0, none⟩ 5).1.subscribers =
      setDelete [5, 6] 5 ∧
    5 ∉ (Session.unsubscribe ⟨"s1", false, [5, 6], 0, none⟩ 5).1.subscribers ∧
    (Session.unsubscribe ⟨"s1", false, [5, 6], 0, none⟩ 5).2 = none :=
  ⟨(C9_amended_unsubscribe ⟨"s1", false, [5, 6], 0, none⟩ 5).1,
   (C9_amended_unsubscribe ⟨"s1", false, [5, 6], 0, none⟩ 5).2.1,
   (C9_amended_unsubscribe ⟨"s1", false, [5, 6], 0, none⟩ 5).2.2.1⟩

/-- C7: during a broadcast, delivery is attempted once per subscriber in
iteration order; a subscriber whose send fails is removed from the
subscriber set as a side effect and gets no retry; every other subscriber
receives the event and stays subscribed; the rest of the coordinator state
(id, message count, continuation token, in-flight flag) is unchanged. -/
theorem C7_broadcast_failure (s : Session) (sendOk : Conn → Bool) (ev : BroadcastEvent) :
    ((s.broadcast sendOk ev).1.subscribers = s.subscribers.filter sendOk) ∧
    ((s.broadcast sendOk ev).2 = s.subscribers.filter sendOk) ∧
    (∀ c ∈ s.subscribers, sendOk c = false → c ∉ (s.broadcast sendOk ev).1.subscribers) ∧
    (∀ c ∈ s.subscribers, sendOk c = true →
       c ∈ (s.broadcast sendOk ev).2 ∧ c ∈ (s.broadcast sendOk ev).1.subscribers) ∧
    (s.subscribers.Nodup → (s.broadcast sendOk ev).2.Nodup) ∧
    ((s.broadcast sendOk ev).1.id = s.id ∧
     (s.broadcast sendOk ev).1.messageCount = s.messageCount ∧
     (s.broadcast sendOk ev).1.sdkSessionId = s.sdkSessionId ∧
     (s.broadcast sendOk ev).1.queryPromise = s.queryPromise) := by
  refine ⟨broadcast_subscribers s sendOk ev, broadcast_delivered s sendOk ev, ?_, ?_, ?_,
    broadcast_frame s sendOk ev⟩
  · intro c hc hbad
    rw [broadcast_subscribers]
    simp [List.mem_filter, hbad]
  · intro c hc hok
    rw [broadcast_delivered, broadcast_subscribers]
    simp [List.mem_filter, hc, hok]
  · intro hnd
    rw [broadcast_delivered]
    exact hnd.filter sendOk

/-- C7 witness: on the subscriber set `[1, 2, 3]` with delivery to `2`
failing, `2` is dropped from the set while `1` still receives the event. -/
theorem C7_witness :
    2 ∉ (Session.broadcast ⟨"s1", false, [1, 2, 3], 0, none⟩ (fun c => !(c == 2))
          (.errorEvent "x" "s1")).1.subscribers ∧
    1 ∈ (Session.broadcast ⟨"s1", false, [1, 2, 3], 0, none⟩ (fun c => !(c == 2))
          (.errorEvent "x" "s1")).2 :=
  ⟨(C7_broadcast_failure ⟨"s1", false, [1, 2, 3], 0, none⟩ (fun c => !(c == 2))
      (.errorEvent "x" "s1")).2.2.1 2 (by decide) (by decide),
   ((C7_broadcast_failure ⟨"s1", false, [1, 2, 3], 0, none⟩ (fun c => !(c == 2))
      (.errorEvent "x" "s1")).2.2.2.1 1 (by decide) (by decide)).1⟩

/-- C10: `reset()` mutates only the continuation token, the message count
and the in-flight flag: the subscriber set and the session id are
unchanged, the `'reset'` server branch leaves the database untouched, and
every connection subscribed before the reset is still among the receivers
of an event broadcast after it (when its delivery succeeds). -/
theorem C10_reset_frame (s : Session) (db : DB) (sendOk : Conn → Bool) (ev : BroadcastEvent) :
    s.reset.subscribers = s.subscribers ∧
    s.reset.id = s.id ∧
    (serverReset s db).1.2 = db ∧
    (serverReset s db).1.1 = s.reset ∧
    (∀ c ∈ s.subscribers, sendOk c = true → c ∈ (s.reset.broadcast sendOk ev).2) := by
  refine ⟨rfl, rfl, rfl, rfl, ?_⟩
  intro c hc hok
  rw [broadcast_delivered]
  simp [Session.reset, List.mem_filter, hc, hok]

/-- C10 witness: the connection `4`, subscribed before a reset of an
active session holding token `"abc"`, receives an event broadcast after
the reset. -/
theorem C10_witness :
    4 ∈ ((Session.reset ⟨"s1", true, [4], 3, some "abc"⟩).broadcast (fun _ => true)
          (.errorEvent "x" "s1")).2 :=
  (C10_reset_frame ⟨"s1", true, [4], 3, some "abc"⟩ [] (fun _ => true)
    (.errorEvent "x" "s1")).2.2.2.2 4 (by decide) rfl

/-- C5: when the engine stream raises during a turn, the coordinator
catches the failure: the last published event of the turn is the `error`
broadcast carrying the failure description, the in-flight flag is cleared
(back to Idle), and a subsequent `addUserMessage` on the same session
proceeds normally — it makes its own engine invocation (with the session's
current token) and increments the message count; the failure is not fatal
to the session. -/
theorem C5_error_recovery (s : Session) (db : DB) (sendOk : Conn → Bool) (now : Nat)
    (content : String) (msgs : List SDKMessage) (emsg : String)
    (now2 : Nat) (content2 : String) (stream2 : StreamOutcome) :
    (s.addUserMessage db sendOk now content (.err msgs emsg)).session.queryPromise = false ∧
    (s.addUserMessage db sendOk now content (.err msgs emsg)).events.getLast? =
      some (.errorEvent emsg s.id) ∧
    ((s.addUserMessage db sendOk now content (.err msgs emsg)).session.addUserMessage
        (s.addUserMessage db sendOk now content (.err msgs emsg)).db sendOk now2 content2
        stream2).call =
      ⟨content2,
       (s.addUserMessage db sendOk now content (.err msgs emsg)).session.sdkSessionId⟩ ∧
    ((s.addUserMessage db sendOk now content (.err msgs emsg)).session.addUserMessage
        (s.addUserMessage db sendOk now content (.err msgs emsg)).db sendOk now2 content2
        stream2).session.messageCount =
      (s.addUserMessage db sendOk now content (.err msgs emsg)).session.messageCount + 1 := by
  have hid := (runStream_frame sendOk now msgs
    { s with messageCount := s.messageCount + 1, queryPromise := true } db).1
  refine ⟨by simp [Session.addUserMessage], ?_, ?_, ?_⟩
  · simp only [Session.addUserMessage, Session.broadcastError]
    rw [List.getLast?_concat]
    rw [hid]
  · cases stream2 <;> simp [Session.addUserMessage]
  · cases stream2 with
    | ok msgs2 =>
        simp only [Session.addUserMessage]
        exact (runStream_frame sendOk now2 msgs2 _ _).2.1
    | err msgs2 emsg2 =>
        simp only [Session.addUserMessage, Session.broadcastError]
        rw [(broadcast_frame _ _ _).2.1]
        exact (runStream_frame sendOk now2 msgs2 _ _).2.1

/-- C2 counterexample: a turn that fails before the turn-start signal
leaves the durable row stale.  A fresh session `"s1"` (row
`{token none, created 100, lastActive 100, count 0}`) processes a message
whose stream throws immediately: afterwards the in-memory message count is
`1`, but the durable row still holds count `0` and timestamp `100`, so the
row does not reflect the latest count and last-active timestamp after this
(caught-failure) turn. -/
theorem C2_counterexample :
    ((Session.new "s1" [] 100).1.addUserMessage (Session.new "s1" [] 100).2
      (fun _ => true) 200 "hello" (.err [] "boom")).session.messageCount = 1 ∧
    dbLookup ((Session.new "s1" [] 100).1.addUserMessage (Session.new "s1" [] 100).2
      (fun _ => true) 200 "hello" (.err [] "boom")).db "s1" =
      some ⟨none, 100, 100, 0⟩ ∧
    ((dbLookup ((Session.new "s1" [] 100).1.addUserMessage (Session.new "s1" [] 100).2
        (fun _ => true) 200 "hello" (.err [] "boom")).db "s1").map
          SessionRow.message_count ≠
      some ((Session.new "s1" [] 100).1.addUserMessage (Session.new "s1" [] 100).2
        (fun _ => true) 200 "hello" (.err [] "boom")).session.messageCount) := by
  refine ⟨rfl, rfl, by decide⟩

/-- C2 (amended): the durable row is written exactly at turn-start
signals.  For every turn — successful or ending in a caught failure —
whose stream carries at least one `init` signal, the row afterwards holds
the latest continuation token, the turn's timestamp and the turn's message
count; a turn whose stream carries no `init` signal leaves the database
unchanged (so the row can go stale, as the counterexample shows).  The
message count of the turn is always the previous count plus one. -/
theorem C2_amended_persistence (s : Session) (db : DB) (sendOk : Conn → Bool)
    (now : Nat) (content : String) (stream : StreamOutcome) (r0 : SessionRow)
    (h : dbLookup db s.id = some r0) :
    (stream.msgs.any SDKMessage.isInit = false →
      (s.addUserMessage db sendOk now content stream).db = db) ∧
    (stream.msgs.any SDKMessage.isInit = true →
      dbLookup (s.addUserMessage db sendOk now content stream).db s.id =
        some ⟨(s.addUserMessage db sendOk now content stream).session.sdkSessionId,
              r0.created_at, now,
              (s.addUserMessage db sendOk now content stream).session.messageCount⟩) ∧
    (s.addUserMessage db sendOk now content stream).session.messageCount =
      s.messageCount + 1 := by
  have hcnt : (s.addUserMessage db sendOk now content stream).session.messageCount =
      s.messageCount + 1 := by
    cases stream with
    | ok msgs =>
        simp only [Session.addUserMessage]
        exact (runStream_frame sendOk now msgs _ _).2.1
    | err msgs emsg =>
        simp only [Session.addUserMessage, Session.broadcastError]
        rw [(broadcast_frame _ _ _).2.1]
        exact (runStream_frame sendOk now msgs _ _).2.1
  refine ⟨fun hni => (addUserMessage_no_init_token s db sendOk now content stream hni).2,
    ?_, hcnt⟩
  intro hany
  rw [hcnt]
  cases stream with
  | ok msgs =>
      have := runStream_db sendOk now msgs
        { s with messageCount := s.messageCount + 1, queryPromise := true } db r0
        (by simpa using h) (by simpa [StreamOutcome.msgs] using hany)
      simpa [Session.addUserMessage] using this
  | err msgs emsg =>
      have hdb := runStream_db sendOk now msgs
        { s with messageCount := s.messageCount + 1, queryPromise := true } db r0
        (by simpa using h) (by simpa [StreamOutcome.msgs] using hany)
      have hbf := broadcast_frame
        (runStream sendOk now msgs
          { s with messageCount := s.messageCount + 1, queryPromise := true } db).1
        sendOk
        (.errorEvent emsg
          (runStream sendOk now msgs
            { s with messageCount := s.messageCount + 1, queryPromise := true } db).1.id)
      simp only [Session.addUserMessage, Session.broadcastError]
      rw [hbf.2.2.1]
      simpa using hdb

/-- C2 witness: the §8 scenario — fresh session `"s1"`, stream
`init "abc"`, `assistant "hi"`, `result success` — ends with the durable
row holding token `"abc"`, timestamp `200` and count `1`. -/
theorem C2_amended_persistence_witness :
    dbLookup ((Session.new "s1" [] 100).1.addUserMessage (Session.new "s1" [] 100).2
      (fun _ => true) 200 "hello"
      (.ok [.system_init "abc", .assistant (.str "hi"),
            .result "success" "done" 3 5000])).db "s1" =
      some ⟨((Session.new "s1" [] 100).1.addUserMessage (Session.new "s1" [] 100).2
        (fun _ => true) 200 "hello"
        (.ok [.system_init "abc", .assistant (.str "hi"),
              .result "success" "done" 3 5000])).session.sdkSessionId, 100, 200,
        ((Session.new "s1" [] 100).1.addUserMessage (Session.new "s1" [] 100).2
          (fun _ => true) 200 "hello"
          (.ok [.system_init "abc", .assistant (.str "hi"),
                .result "success" "done" 3 5000])).session.messageCount⟩ := by
  have := (C2_amended_persistence (Session.new "s1" [] 100).1 (Session.new "s1" [] 100).2
    (fun _ => true) 200 "hello"
    (.ok [.system_init "abc", .assistant (.str "hi"), .result "success" "done" 3 5000])
    ⟨none, 100, 100, 0⟩ rfl).2.1 (by decide)
  exact this

/-- C8 counterexample: constructing a coordinator for an id whose durable
record already exists does NOT load the stored values.  With the stored
row `{token "abc", count 5}` for `"s1"`, the freshly constructed
coordinator holds token `none` and count `0`, not the stored values. -/
theorem C8_counterexample :
    dbLookup [("s1", ⟨some "abc", 10, 20, 5⟩)] "s1" = some ⟨some "abc", 10, 20, 5⟩ ∧
    (Session.new "s1" [("s1", ⟨some "abc", 10, 20, 5⟩)] 30).1.sdkSessionId = none ∧
    (Session.new "s1" [("s1", ⟨some "abc", 10, 20, 5⟩)] 30).1.messageCount = 0 ∧
    ¬ ((Session.new "s1" [("s1", ⟨some "abc", 10, 20, 5⟩)] 30).1.sdkSessionId = some "abc" ∧
       (Session.new "s1" [("s1", ⟨some "abc", 10, 20, 5⟩)] 30).1.messageCount = 5) := by
  refine ⟨rfl, rfl, rfl, by simp [Session.new]⟩

/-- C8 (amended): construction only initializes the durable record — it
inserts a zeroed row when absent and keeps an existing row untouched — and
always starts the in-memory coordinator with token `none`, count `0`, no
subscribers and no query in flight; the stored values are never loaded.
The in-memory token then persists across turns until an explicit reset: a
turn whose stream carries no turn-start signal leaves any session's token
unchanged. -/
theorem C8_amended_construction (id : String) (db : DB) (now : Nat)
    (sendOk : Conn → Bool) (now2 : Nat) (content : String) (stream : StreamOutcome) :
    (Session.new id db now).1.sdkSessionId = none ∧
    (Session.new id db now).1.messageCount = 0 ∧
    (Session.new id db now).1.subscribers = [] ∧
    (Session.new id db now).1.queryPromise = false ∧
    ((dbLookup db id).isSome = true → (Session.new id db now).2 = db) ∧
    (dbLookup db id = none →
      dbLookup (Session.new id db now).2 id = some ⟨none, now, now, 0⟩) ∧
    (∀ s : Session, stream.msgs.any SDKMessage.isInit = false →
      (s.addUserMessage db sendOk now2 content stream).session.sdkSessionId =
        s.sdkSessionId) := by
  refine ⟨rfl, rfl, rfl, rfl, ?_, ?_, ?_⟩
  · intro hsome
    simp [Session.new, dbInsertOrIgnore, hsome]
  · intro hnone
    simp only [Session.new, dbInsertOrIgnore, hnone, Option.isSome_none,
      Bool.false_eq_true, if_false]
    exact dbLookup_append_right id ⟨none, now, now, 0⟩ db hnone
  · intro s hni
    exact (addUserMessage_no_init_token s db sendOk now2 content stream hni).1

/-- C8 witness: with the stored row `{token "abc", count 5}` for `"s1"`,
construction at time `30` keeps the database unchanged while the new
coordinator starts with token `none` and count `0`; a subsequent
init-free turn still leaves the token of the fresh coordinator at
`none`. -/
theorem C8_amended_construction_witness :
    (Session.new "s1" [("s1", ⟨some "abc", 10, 20, 5⟩)] 30).2 =
      [("s1", ⟨some "abc", 10, 20, 5⟩)] ∧
    (Session.new "s1" [("s1", ⟨some "abc", 10, 20, 5⟩)] 30).1.sdkSessionId = none ∧
    ((Session.new "s1" [("s1", ⟨some "abc", 10, 20, 5⟩)] 30).1.addUserMessage
      [("s1", ⟨some "abc", 10, 20, 5⟩)] (fun _ => true) 40 "hi"
      (.ok [.assistant (.str "yo")])).session.sdkSessionId = none := by
  have h := C8_amended_construction "s1" [("s1", ⟨some "abc", 10, 20, 5⟩)] 30
    (fun _ => true) 40 "hi" (.ok [.assistant (.str "yo")])
  exact ⟨h.2.2.2.2.1 (by decide), h.1,
    (h.2.2.2.2.2.2 (Session.new "s1" [("s1", ⟨some "abc", 10, 20, 5⟩)] 30).1
      (by decide)).trans h.1⟩

/-- C3: translation of the raw stream into broadcast events.  A raw
assistant message whose content blocks are all text or tool-use publishes
exactly one event per block, in original block order — `assistant_message`
with the block's text for a text block, `tool_use` with the block's name,
id and input for a tool-use block; a raw result message of subtype
`success` publishes the success-shaped `result` event carrying result,
cost and duration, and any other subtype publishes the failure-shaped
`result` event carrying the subtype as its error. -/
theorem C3_translation (s : Session) (sendOk : Conn → Bool) (bs : List ContentBlock)
    (h : ∀ b ∈ bs, b.isSupported = true)
    (subtype res : String) (cost dur : Nat) (hsub : subtype ≠ "success") :
    (s.broadcastToSubscribers sendOk (.assistant (.blocks bs))).2 =
      bs.map (blockEvent s.id) ∧
    (s.broadcastToSubscribers sendOk (.assistant (.blocks bs))).2.length = bs.length ∧
    (∀ t, blockEvent s.id (.text t) = .assistant_message t s.id) ∧
    (∀ name tid inp, blockEvent s.id (.tool_use name tid inp) = .tool_use name tid inp s.id) ∧
    ((s.broadcastToSubscribers sendOk (.result "success" res cost dur)).2 =
      [.result_ok res cost dur s.id]) ∧
    ((s.broadcastToSubscribers sendOk (.result subtype res cost dur)).2 =
      [.result_err subtype s.id]) := by
  have hmap : (s.broadcastToSubscribers sendOk (.assistant (.blocks bs))).2 =
      bs.map (blockEvent s.id) := by
    simp only [Session.broadcastToSubscribers, translateMessage]
    exact filterMap_blocks s.id bs h
  refine ⟨hmap, by rw [hmap]; exact List.length_map bs (blockEvent s.id),
    fun t => rfl, fun name tid inp => rfl, by simp [Session.broadcastToSubscribers,
      translateMessage], ?_⟩
  have hne : (subtype == "success") = false := by
    simpa using hsub
  simp [Session.broadcastToSubscribers, translateMessage, hne]

/-- C3 witness: an assistant message with a text block followed by a
tool-use block publishes exactly those two events in order, and a result
of subtype `error_max_turns` publishes the failure-shaped event. -/
theorem C3_translation_witness :
    (Session.broadcastToSubscribers ⟨"s1", false, [1], 0, none⟩ (fun _ => true)
      (.assistant (.blocks [.text "hi", .tool_use "Read" "t1" "input"]))).2 =
      [.assistant_message "hi" "s1", .tool_use "Read" "t1" "input" "s1"] ∧
    (Session.broadcastToSubscribers ⟨"s1", false, [1], 0, none⟩ (fun _ => true)
      (.result "error_max_turns" "r" 1 2)).2 = [.result_err "error_max_turns" "s1"] := by
  have h := C3_translation ⟨"s1", false, [1], 0, none⟩ (fun _ => true)
    [.text "hi", .tool_use "Read" "t1" "input"] (by decide) "error_max_turns" "r" 1 2
    (by decide)
  exact ⟨h.1.trans (by decide), h.2.2.2.2.2⟩

theorem lookupRef_filter_self (l : List (String × Nat)) (sid : String) :
    (l.filter (fun p => p.1 ≠ sid)).find? (fun p => p.1 == sid) = none := by
  rw [List.find?_eq_none]
  intro x hx
  have hne : x.1 ≠ sid := by simpa using (List.mem_filter.mp hx).2
  simpa using hne

theorem findMap_set (r : Nat) (x : Session) :
    ∀ l : List (Nat × Session),
      (l.find? (fun p => p.1 == r)).isSome = true →
      ((l.map (fun p => if p.1 == r then (p.1, x) else p)).find?
        (fun p => p.1 == r)).map Prod.snd = some x := by
  intro l
  induction l with
  | nil => intro h; simp [List.find?] at h
  | cons p rest ih =>
      intro h
      cases hp : (p.1 == r) with
      | true =>
          simp only [List.map_cons]
          rw [if_pos hp]
          simp [List.find?_cons, hp]
      | false =>
          simp only [List.find?_cons, hp] at h
          simp only [List.map_cons, List.find?_cons, hp, Bool.false_eq_true, if_false]
          exact ih h

theorem heapGet_heapSet (st : ServerState) (r : Nat) (x : Session)
    (h : (heapGet st r).isSome = true) : heapGet (heapSet st r x) r = some x := by
  have := findMap_set r x st.heap (by simpa [heapGet] using h)
  simpa [heapGet, heapSet] using this

/-- C4 counterexample: a stale timer evicts a freshly re-created,
subscribed coordinator.  Trace: subscriber `1` opens `"s1"` and leaves
(timer A); subscriber `2` joins and leaves (timer B — both capture
object `0`); timer A fires and evicts object `0`; subscriber `3` re-opens
`"s1"`, creating a fresh coordinator (object `1`) with a live subscriber
strictly before timer B fires; yet when stale timer B fires, its re-check
reads the captured, already-cleaned object `0`, finds no subscribers, and
`sessions.delete` removes the subscribed coordinator from the registry —
refuting 'if any subscriber reattached strictly before the timer fires the
coordinator is left in the registry'. -/
theorem C4_counterexample :
    staleScenario6.timers = [(0, "s1", 63000)] ∧
    lookupSession staleScenario6 "s1" = some ⟨"s1", false, [3], 0, none⟩ ∧
    Session.hasSubscribers ⟨"s1", false, [3], 0, none⟩ = true ∧
    lookupSession (timerFire staleScenario6 0 "s1" 63000).1 "s1" = none := by
  refine ⟨by decide, by decide, by decide, by decide⟩

/-- C4 (amended): when the subscriber count of a session drops to zero on
a disconnect, a one-shot timer for `now + 60000` ms capturing that
coordinator object and the id is appended (and none while subscribers
remain); resubscription (`wsOpen`) never cancels a pending timer; at fire
time `hasSubscribers()` of the CAPTURED coordinator is re-checked — if it
has a subscriber, the registry and the object store are left untouched;
in particular, when the captured coordinator is still the registry's
entry for the id (no eviction-and-re-creation in between) and a subscriber
reattached strictly before the fire, the coordinator is left in the
registry.  On a negative re-check the captured coordinator is cleaned up
(subscriber set cleared) and the registry entry for the id is removed —
whatever coordinator that entry currently holds, which is how a stale
timer can evict a re-created, subscribed coordinator (see the
counterexample).  In either case the fired timer is spent. -/
theorem C4_eviction_recheck (st : ServerState) (sid : String) (c : Conn)
    (now fireAt r rc : Nat) (s1 sc : Session)
    (h : lookupRef st sid = some r) (hs : heapGet st r = some s1)
    (hc : heapGet st rc = some sc) :
    (((s1.unsubscribe c).1.hasSubscribers = false →
        (wsClose st sid c now).timers = st.timers ++ [(r, sid, now + 60000)]) ∧
     ((s1.unsubscribe c).1.hasSubscribers = true →
        (wsClose st sid c now).timers = st.timers)) ∧
    (∀ (st' : ServerState) (c2 : Conn) (now2 : Nat),
        (wsOpen st' sid c2 now2).timers = st'.timers) ∧
    ((sc.hasSubscribers = true →
        (timerFire st rc sid fireAt).1.sessions = st.sessions ∧
        (timerFire st rc sid fireAt).1.heap = st.heap ∧
        (timerFire st rc sid fireAt).2 = none) ∧
     (lookupRef st sid = some rc → sc.hasSubscribers = true →
        lookupSession (timerFire st rc sid fireAt).1 sid = some sc) ∧
     (sc.hasSubscribers = false →
        lookupRef (timerFire st rc sid fireAt).1 sid = none ∧
        (timerFire st rc sid fireAt).2 = some sc.cleanup ∧
        sc.cleanup.subscribers = [] ∧
        heapGet (timerFire st rc sid fireAt).1 rc = some sc.cleanup)) ∧
    (timerFire st rc sid fireAt).1.timers = removeOneTimer st.timers rc sid fireAt := by
  have h1 : heapGet
      { st with timers := removeOneTimer st.timers rc sid fireAt } rc = some sc := hc
  refine ⟨⟨?_, ?_⟩, ?_, ⟨?_, ?_, ?_⟩, ?_⟩
  · intro hz
    simp [wsClose, h, hs, hz, heapSet]
  · intro hnz
    simp [wsClose, h, hs, hnz, heapSet]
  · intro st' c2 now2
    cases hls : lookupRef st' sid with
    | none => simp [wsOpen, hls, heapSet]
    | some r2 => cases hg : heapGet st' r2 <;> simp [wsOpen, hls, hg, heapSet]
  · intro hsub
    simp [timerFire, h1, hsub]
  · intro hcur hsub
    have hls1 : lookupRef
        { st with timers := removeOneTimer st.timers rc sid fireAt } sid = some rc := hcur
    simp [timerFire, h1, hsub, lookupSession, hls1]
  · intro hz
    refine ⟨?_, by simp [timerFire, h1, hz], by simp [Session.cleanup], ?_⟩
    · simp only [timerFire, h1, hz, Bool.false_eq_true, if_false]
      simp only [lookupRef, heapSet]
      rw [lookupRef_filter_self]
      rfl
    · simp only [timerFire, h1, hz, Bool.false_eq_true, if_false]
      have hset := heapGet_heapSet
        { st with timers := removeOneTimer st.timers rc sid fireAt } rc sc.cleanup
        (by rw [h1]; rfl)
      simpa [heapGet, heapSet] using hset
  · cases hg : heapGet st rc with
    | none => simp [timerFire, show heapGet
        { st with timers := removeOneTimer st.timers rc sid fireAt } rc = none from hg]
    | some sx =>
        have h1x : heapGet
            { st with timers := removeOneTimer st.timers rc sid fireAt } rc = some sx := hg
        cases hsx : sx.hasSubscribers <;> simp [timerFire, h1x, hsx, heapSet]

/-- C4 witness: in the scenario — count drops to zero at `t = 0`
scheduling a timer that captures the coordinator, a new subscriber joins
at `t = 59` s without cancelling it — when the timer fires at `t = 60` s
the re-check on the (still current) captured coordinator finds the
subscriber, so the registry and store are untouched and the coordinator
for `"s1"` still exists in the registry afterwards (at `t = 61` s). -/
theorem C4_eviction_recheck_witness :
    evictionScenario2.timers = [(0, "s1", 60000)] ∧
    evictionScenario3.timers = [(0, "s1", 60000)] ∧
    lookupSession evictionScenario3 "s1" = some ⟨"s1", false, [2], 0, none⟩ ∧
    (timerFire evictionScenario3 0 "s1" 60000).1.sessions = evictionScenario3.sessions ∧
    lookupSession (timerFire evictionScenario3 0 "s1" 60000).1 "s1" =
      some ⟨"s1", false, [2], 0, none⟩ ∧
    (timerFire evictionScenario3 0 "s1" 60000).2 = none := by
  have h := C4_eviction_recheck evictionScenario3 "s1" 2 59000 60000 0 0
    ⟨"s1", false, [2], 0, none⟩ ⟨"s1", false, [2], 0, none⟩
    (by decide) (by decide) (by decide)
  have hfire := h.2.2.1.1 (by decide)
  have hcur := h.2.2.1.2.1 (by decide) (by decide)
  exact ⟨by decide, by decide, by decide, hfire.1, hcur, hfire.2.2⟩

theorem eq_singleton_of_len_le_one {α : Type} {l : List α} {x : α}
    (hlen : l.length ≤ 1) (hx : x ∈ l) : l = [x] := by
  cases l with
  | nil => cases hx
  | cons a rest =>
      cases rest with
      | nil => rw [List.mem_singleton.mp hx]
      | cons b r2 => simp at hlen

theorem Inv_init : SInv SState.init := by
  refine ⟨by simp [SState.init], ?_, fun _ => rfl, ?_, ?_, ?_, ?_⟩ <;>
    simp [SState.init]

theorem hasResumable_false {st : SState} (hres : hasResumable st = false) :
    ∀ w ∈ st.waiting, w.2 ∉ st.settledTurns := by
  intro w hw hmem
  have := List.any_eq_false.mp hres w hw
  simp [List.elem_iff] at this
  exact this hmem

theorem startTurn_inv {st : SState} (hrun : st.runningTurns = [])
    (hwait : ∀ w ∈ st.waiting, w.2 ∉ st.settledTurns)
    (i7 : ∀ t ∈ st.settledTurns, t < st.nextTurn) : SInv (startTurn st) := by
  refine ⟨?_, ?_, ?_, ?_, ?_, ?_, ?_⟩
  · simp [startTurn, hrun]
  · intro t ht
    simp only [startTurn] at ht ⊢
    rw [Option.some_inj] at ht
    rw [← ht]
    exact List.mem_cons_self _ _
  · intro hnone; simp [startTurn] at hnone
  · intro w hw hsettled
    exact absurd hsettled (hwait w hw)
  · intro t ht
    simp only [startTurn, hrun, List.mem_singleton] at ht
    subst ht
    intro hmem
    exact lt_irrefl _ (i7 _ hmem)
  · intro t ht
    simp only [startTurn, hrun, List.mem_singleton] at ht
    subst ht
    simp [startTurn]
  · intro t ht
    simp only [startTurn]
    exact Nat.lt_succ_of_lt (i7 t ht)

theorem applyStep_inv (st : SState) (e : Step) (st' : SState)
    (hI : SInv st) (hW : st.waiting.length ≤ 1)
    (h : applyStep st e = some st') : SInv st' := by
  obtain ⟨i1, i2, i3, i4, i5, i6, i7⟩ := hI
  cases e with
  | callStep c =>
      simp only [applyStep] at h
      cases hres : hasResumable st with
      | true => rw [hres] at h; simp at h
      | false =>
      rw [hres] at h
      rw [if_neg (by simp)] at h
      cases hdup : st.waiting.any (fun w => w.1 == c) with
      | true => rw [hdup] at h; simp at h
      | false =>
      rw [hdup] at h
      rw [if_neg (by simp)] at h
      cases hqp : st.queryPromise with
      | some t =>
          simp only [hqp] at h
          rw [Option.some_inj] at h
          subst h
          refine ⟨i1, ?_, ?_, ?_, i5, i6, i7⟩
          · intro t1 ht1
            cases ht1
            exact i2 t hqp
          · intro hn
            exact Option.noConfusion hn
          · intro w hw hsettled
            rcases List.mem_append.mp hw with hin | hnew
            · exact i4 w hin hsettled
            · rw [List.mem_singleton] at hnew
              subst hnew
              exact absurd hsettled (i5 t (i2 t hqp))
      | none =>
          simp only [hqp] at h
          rw [Option.some_inj] at h
          subst h
          exact startTurn_inv (i3 hqp) (hasResumable_false hres) i7
  | resumeStep c =>
      simp only [applyStep] at h
      cases hf : st.waiting.find? (fun w => w.1 == c) with
      | none => rw [hf] at h; simp at h
      | some w =>
      simp only [hf] at h
      cases hset : st.settledTurns.contains w.2 with
      | false => rw [hset] at h; simp at h
      | true =>
      rw [hset] at h
      rw [if_pos rfl] at h
      rw [Option.some_inj] at h
      subst h
      have hwmem : w ∈ st.waiting := List.mem_of_find?_eq_some hf
      have hwc : w.1 = c := by simpa using List.find?_some hf
      have hsettled : w.2 ∈ st.settledTurns := by
        have := hset
        rw [List.elem_iff] at this
        exact this
      have hrun : st.runningTurns = [] := i4 w hwmem hsettled
      have hsingle : st.waiting = [w] := eq_singleton_of_len_le_one hW hwmem
      have hfilter : st.waiting.filter (fun x => x.1 ≠ c) = [] := by
        rw [hsingle]
        simp [List.filter, hwc]
      refine @startTurn_inv { st with waiting := st.waiting.filter (fun x => x.1 ≠ c) }
        hrun ?_ i7
      intro w2 hw2
      rw [hfilter] at hw2
      cases hw2
  | settleStep t =>
      simp only [applyStep] at h
      cases hres : hasResumable st with
      | true => rw [hres] at h; simp at h
      | false =>
      rw [hres] at h
      rw [if_neg (by simp)] at h
      cases hmem : st.runningTurns.contains t with
      | false => rw [hmem] at h; simp at h
      | true =>
      rw [hmem] at h
      rw [if_pos rfl] at h
      rw [Option.some_inj] at h
      subst h
      have htr : t ∈ st.runningTurns := by
        have := hmem
        rw [List.elem_iff] at this
        exact this
      have hrun : st.runningTurns = [t] := eq_singleton_of_len_le_one i1 htr
      have hfilter : st.runningTurns.filter (fun x => x ≠ t) = [] := by
        rw [hrun]; simp [List.filter]
      refine ⟨?_, ?_, ?_, ?_, ?_, ?_, ?_⟩
      · rw [hfilter]; simp
      · intro t2 ht2; cases ht2
      · intro _; exact hfilter
      · intro w hw _; exact hfilter
      · intro t2 ht2
        rw [hfilter] at ht2
        cases ht2
      · intro t2 ht2
        rw [hfilter] at ht2
        cases ht2
      · intro t2 ht2
        rcases List.mem_cons.mp ht2 with rfl | hin
        · exact i6 t2 htr
        · exact i7 t2 hin

theorem runFrom_inv : ∀ (steps : List Step) (st stF : SState),
    SInv st → chkLe1 st steps = true → runFrom st steps = some stF → SInv stF := by
  intro steps
  induction steps with
  | nil =>
      intro st stF hI _ h
      rw [runFrom, Option.some_inj] at h
      subst h
      exact hI
  | cons e es ih =>
      intro st stF hI hchk h
      simp only [runFrom] at h
      cases ha : applyStep st e with
      | none => rw [ha] at h; cases h
      | some st1 =>
          rw [ha] at h
          simp only [chkLe1, ha, Bool.and_eq_true, decide_eq_true_eq] at hchk
          exact ih st1 stF (applyStep_inv st e st1 hI hchk.1 ha) hchk.2 h

/-- C1 (amended): per-session serialization in the event-loop model of
`addUserMessage`.  (1) As long as at most one caller is suspended at any
instant along the run, at most one agent-query-engine invocation is ever
in flight — the final state of any such run has at most one running turn.
(2) Unconditionally, a suspended caller resumes — and only then starts its
own invocation — strictly after the turn it awaited has settled.  (The
claim's unconditional no-overlap statement is refuted by
the three-caller counterexample.) -/
theorem C1_amended_serialization (steps : List Step) (stF : SState)
    (h : runFrom SState.init steps = some stF)
    (hchk : chkLe1 SState.init steps = true) :
    stF.runningTurns.length ≤ 1 ∧
    (∀ (st : SState) (c : Nat) (stN : SState),
      applyStep st (.resumeStep c) = some stN →
      ∃ t, (c, t) ∈ st.waiting ∧ t ∈ st.settledTurns) := by
  refine ⟨(runFrom_inv steps SState.init stF Inv_init hchk h).1, ?_⟩
  intro st c stN hstep
  simp only [applyStep] at hstep
  cases hf : st.waiting.find? (fun w => w.1 == c) with
  | none => rw [hf] at hstep; simp at hstep
  | some w =>
      simp only [hf] at hstep
      cases hset : st.settledTurns.contains w.2 with
      | false => rw [hset] at hstep; simp at hstep
      | true =>
          have hwmem : w ∈ st.waiting := List.mem_of_find?_eq_some hf
          have hwc : w.1 = c := by simpa using List.find?_some hf
          have hsettled : w.2 ∈ st.settledTurns := by
            have := hset
            rw [List.elem_iff] at this
            exact this
          refine ⟨w.2, ?_, hsettled⟩
          rw [← hwc]
          exact hwmem

/-- C1 witness: the two-caller run — caller `0` starts a turn, caller `1`
arrives while it is in flight and waits, the turn settles, caller `1`
resumes and runs its own turn, which settles — keeps at most one suspended
caller throughout and ends with no overlap; and the concrete resume step
of caller `1` was enabled only because turn `0` had settled. -/
theorem C1_amended_serialization_witness :
    (⟨none, [], [], [1, 0], 2⟩ : SState).runningTurns.length ≤ 1 ∧
    ∃ t, (1, t) ∈ (⟨none, [(1, 0)], [], [0], 1⟩ : SState).waiting ∧
      t ∈ (⟨none, [(1, 0)], [], [0], 1⟩ : SState).settledTurns := by
  have h := C1_amended_serialization
    [.callStep 0, .callStep 1, .settleStep 0, .resumeStep 1, .settleStep 1]
    ⟨none, [], [], [1, 0], 2⟩ (by decide) (by decide)
  exact ⟨h.1, h.2 ⟨none, [(1, 0)], [], [0], 1⟩ 1 ⟨some 1, [], [1], [0], 2⟩ (by decide)⟩

/-- C1 counterexample: with three concurrent `addUserMessage` calls the
engine invocations DO overlap.  Callers `1` and `2` both arrive while
caller `0`'s turn is in flight and both suspend on the same promise; when
turn `0` settles they resume in order, each starting its own invocation
without re-checking `queryPromise`, reaching a state with turns `1` and
`2` simultaneously in flight — refuting the claim that invocations never
overlap in time. -/
theorem C1_counterexample :
    runFrom SState.init [.callStep 0, .callStep 1, .callStep 2, .settleStep 0,
      .resumeStep 1, .resumeStep 2] = some ⟨some 2, [], [2, 1], [0], 3⟩ ∧
    2 ≤ ((⟨some 2, [], [2, 1], [0], 3⟩ : SState).runningTurns.length) ∧
    ¬ (∀ (steps : List Step) (stF : SState),
        runFrom SState.init steps = some stF → stF.runningTurns.length ≤ 1) := by
  refine ⟨by decide, by decide, fun hall => ?_⟩
  have := hall [.callStep 0, .callStep 1, .callStep 2, .settleStep 0,
    .resumeStep 1, .resumeStep 2] ⟨some 2, [], [2, 1], [0], 3⟩ (by decide)
  simp at this
